import Mathlib

/-!
Verification development for the PostgreSQL vector batch-refresh service
(`src/main.py`).  The Python source is shallowly embedded: pure logic becomes
Lean functions, and the interactions with the database and the embedding
service are driven by explicit oracles (`DbWorld`, `NetResult`).  The job
`batch_refresh_embeddings` is modelled as a function from its parameters and
the oracle to the chronological trace of observable events plus the final
success/failure counters.
-/

namespace EmbeddingRefresh

/-! ## JSON values

Model of the parsed JSON bodies handled by `call_vector_service`
(`response.json()` in the source).  Numbers are modelled as integers: the
code never inspects numeric values, it only moves them around.  -/

inductive Json where
  | null
  | bool (b : Bool)
  | num (n : Int)
  | str (s : String)
  | arr (elems : List Json)
  | obj (fields : List (String × Json))
deriving Repr

/-- Python truthiness of a JSON value: `None`, `False`, `0`, `""`, `[]`, `{}`
are falsy, everything else is truthy. -/
def jsonTruthy : Json → Bool
  | .null => false
  | .bool b => b
  | .num n => n != 0
  | .str s => !s.isEmpty
  | .arr elems => !elems.isEmpty
  | .obj fields => !fields.isEmpty

/-- Python `isinstance(v, list)`. -/
def isJsonList : Json → Bool
  | .arr _ => true
  | _ => false

/-- Association-list lookup used for Python dict access (first binding wins). -/
def lookupField (k : String) : List (String × Json) → Option Json
  | [] => none
  | (k', v) :: rest => if k' == k then some v else lookupField k rest

/-- Python `v.get(k)`: on a dict it returns the value or `None`; on anything
else the attribute access raises (`AttributeError`), modelled as `.error ()`. -/
def pyGet (v : Json) (k : String) : Except Unit Json :=
  match v with
  | .obj fields =>
    match lookupField k fields with
    | some x => .ok x
    | none => .ok .null
  | _ => .error ()

/-! ## The embedding client (`call_vector_service`) -/

/-- Failure classification of one embedding-client call, following the spec's
taxonomy.  Each constructor corresponds to one raise site of the source:
`configurationError` to the `ValueError` at the top of `call_vector_service`
(config check, outside the `try`), `attributeErrorNullText` to the
`AttributeError` from `text.strip()` on a null text (payload construction,
also outside the `try`), `transportError` to the `ConnectionError` raised for
`requests.exceptions.RequestException`, `malformedResponse` to the two
explicit `ValueError` raises of the shape validation, and `unknownError` to
the generic `except Exception` re-raise (`RuntimeError`). -/
inductive EmbedError where
  | configurationError
  | attributeErrorNullText
  | transportError
  | malformedResponse
  | unknownError
deriving Repr, DecidableEq

/-- Shape validation of a successful HTTP response body, exactly as the source
performs it:

```
if not result.get("data") or not isinstance(result["data"], list)
       or len(result["data"]) == 0:           raise ValueError  (malformed)
embedding = result["data"][0].get("embedding")
if not embedding or not isinstance(embedding, list): raise ValueError (malformed)
return embedding
```

An attribute access on a non-dict (`result.get` when the body is not an
object, or `result["data"][0].get` when the first element is not an object)
raises `AttributeError`, which the generic handler converts to the
`unknownError` class, not to `malformedResponse`. -/
def parseEmbedding (result : Json) : Except EmbedError (List Json) :=
  match pyGet result "data" with
  | .error _ => .error .unknownError
  | .ok d =>
    if !jsonTruthy d || !isJsonList d then .error .malformedResponse
    else
      match d with
      | .arr [] => .error .malformedResponse
      | .arr (x :: _) =>
        match pyGet x "embedding" with
        | .error _ => .error .unknownError
        | .ok e =>
          if !jsonTruthy e || !isJsonList e then .error .malformedResponse
          else
            match e with
            | .arr ys => .ok ys
            | _ => .error .malformedResponse
      | _ => .error .malformedResponse

/-- The good response shape in the words of the spec: the body contains a
`data` array with at least one element, whose first element has an
`embedding` field that is a non-empty array; the value is that first
element's embedding.  (Spec-side definition, for comparison with
`parseEmbedding`.) -/
def specGoodShape : Json → Option (List Json)
  | .obj fields =>
    match lookupField "data" fields with
    | some (.arr (x :: _)) =>
      match x with
      | .obj f2 =>
        match lookupField "embedding" f2 with
        | some (.arr (e :: es)) => some (e :: es)
        | _ => none
      | _ => none
    | _ => none
  | _ => none

/-- Bodies on which the source performs an attribute access on a non-object:
the body itself is not an object, or its `data` member is a non-empty array
whose first element is not an object. -/
def badAttributeAccess : Json → Bool
  | .obj fields =>
    match lookupField "data" fields with
    | some (.arr (x :: _)) =>
      match x with
      | .obj _ => false
      | _ => true
    | _ => false
  | _ => true

/-- The environment-provided embedding-service configuration
(`VECTOR_SERVICE_URL`, `VECTOR_MODEL`, `VECTOR_USER`); `os.getenv` yields
`None` when a variable is absent. -/
structure VectorConfig where
  url : Option String
  model : Option String
  user : Option String
deriving Repr

/-- Python truthiness of an `os.getenv` result: `None` and `""` are falsy. -/
def truthyOpt : Option String → Bool
  | none => false
  | some s => !s.isEmpty

/-- `not all([VECTOR_SERVICE_URL, VECTOR_MODEL, VECTOR_USER])` negated. -/
def configComplete (cfg : VectorConfig) : Bool :=
  truthyOpt cfg.url && truthyOpt cfg.model && truthyOpt cfg.user

/-- Oracle for one outbound call to the embedding service: the request raises
a `requests.exceptions.RequestException` (`transportFail`), raises some other
exception such as a JSON-decode failure (`otherFail`), or succeeds with a
parsed JSON body (`httpOk`). -/
inductive NetResult where
  | transportFail
  | otherFail
  | httpOk (body : Json)

/-- Result of one `call_vector_service` invocation: the returned value or the
classified failure, together with whether an outbound network request was
made. -/
structure CallResult where
  value : Except EmbedError (List Json)
  networkCalled : Bool

/-- `call_vector_service(text)`.  The configuration check comes first and
raises before anything else; the payload construction (`text.strip()`) comes
next and raises `AttributeError` on a null text; only then is the network
request issued, its outcome given by the oracle `net`. -/
def call_vector_service (cfg : VectorConfig) (text : Option String)
    (net : NetResult) : CallResult :=
  if !configComplete cfg then
    { value := .error .configurationError, networkCalled := false }
  else
    match text with
    | none => { value := .error .attributeErrorNullText, networkCalled := false }
    | some _ =>
      match net with
      | .transportFail => { value := .error .transportError, networkCalled := true }
      | .otherFail => { value := .error .unknownError, networkCalled := true }
      | .httpOk body => { value := parseEmbedding body, networkCalled := true }

/-! ## Table resolution

The source resolves the requested table with one catalog query:
`WHERE table_schema = 'public' AND table_type = 'BASE TABLE' AND
lower(table_name) = lower(%s)` followed by `fetchone()` — i.e. the first
base table of the schema, in catalog return order, whose name matches
case-insensitively. -/

/-- SQL `lower()` on one character (ASCII case folding). -/
def sqlLowerChar (c : Char) : Char :=
  if 'A' ≤ c && c ≤ 'Z' then Char.ofNat (c.toNat + 32) else c

/-- SQL `lower()` on an identifier. -/
def sqlLower (s : String) : String := ⟨s.data.map sqlLowerChar⟩

def resolveTable (tables : List String) (requested : String) : Option String :=
  tables.find? (fun t => sqlLower t == sqlLower requested)

/-- `full_table_name = f"public.{actual_table_name}"`. -/
def fullPath (actual : String) : String := "public." ++ actual

/-- Lexicographic comparison on character lists (by code point). -/
def charListLe : List Char → List Char → Bool
  | [], _ => true
  | _ :: _, [] => false
  | c :: cs, d :: ds =>
    if c.toNat < d.toNat then true
    else if d.toNat < c.toNat then false
    else charListLe cs ds

/-- String ordering used to model SQL `ORDER BY table_name`. -/
def strLe (s t : String) : Bool := charListLe s.data t.data

/-- Insertion of a string into a sorted list (for `ORDER BY table_name`). -/
def insertSorted (x : String) : List String → List String
  | [] => [x]
  | y :: ys => if strLe x y then x :: y :: ys else y :: insertSorted x ys

/-- The diagnostic catalog query's `ORDER BY table_name` result. -/
def sortTables : List String → List String
  | [] => []
  | x :: xs => insertSorted x (sortTables xs)

/-! ## The batch-refresh job (`batch_refresh_embeddings`) -/

/-- `RefreshEmbeddingParams`: the request model of the trigger endpoint. -/
structure RefreshEmbeddingParams where
  db_ip : String
  db_port : Int
  db_username : String
  db_password : String
  db_name : String
  table_name : String
  text_field_name : String
  vector_field_name : String
deriving Repr

/-- A fetched row: `SELECT id, "<text_field>" AS text` — an identifier and a
possibly-null text value. -/
structure Row where
  id : Int
  text : Option String
deriving Repr, DecidableEq

/-- Kind of exception an oracle-driven step raises: a `psycopg2.Error`
(handled by the rollback branch) or any other exception (handled by the
generic branch). -/
inductive FailKind where
  | dbErr
  | otherErr
deriving Repr, DecidableEq

/-- Oracle for everything outside the process: the database's responses and
the embedding service's per-row responses.  Row indices are 0-based
positions in fetch order (the source's `enumerate(rows, 1)` label is the
position plus one). -/
structure DbWorld where
  /-- `psycopg2.connect` succeeds. -/
  connectOk : Bool
  /-- `register_vector(conn)` outcome (`none` = success). -/
  registerFail : Option FailKind
  /-- The catalog query matching the table succeeds. -/
  resolveOk : Bool
  /-- Base tables of the `public` schema, in catalog return order. -/
  tables : List String
  /-- The diagnostic list-all-tables query succeeds. -/
  listOk : Bool
  /-- The row fetch succeeds. -/
  fetchOk : Bool
  /-- The fetched rows, in fetch order. -/
  rows : List Row
  /-- Whether the UPDATE statement for row index `i` succeeds. -/
  updateOk : Nat → Bool
  /-- The embedding-service response for row index `i`. -/
  net : Nat → NetResult
  /-- `conn.commit()` succeeds. -/
  commitOk : Bool

/-- Observable events of one job, in chronological order. -/
inductive Event where
  /-- The database connection was opened. -/
  | connect
  /-- Log: no matching table in `public` (ignoring case). -/
  | logNoMatch
  /-- Log: all base tables of the schema, as returned by `ORDER BY table_name`. -/
  | logAllTables (names : List String)
  /-- Log: the schema holds no base table at all. -/
  | logNoTables
  /-- Log: matched the target table at this fully-qualified path. -/
  | logMatched (path : String)
  /-- The row fetch was issued against this table path and returned `n` rows. -/
  | fetch (path : String) (n : Nat)
  /-- Log: zero rows, nothing to update. -/
  | logNothingToDo
  /-- Row `i` entered the processing loop body. -/
  | attempt (i : Nat)
  /-- An outbound embedding-service request was made for row `i`. -/
  | networkCall (i : Nat)
  /-- An UPDATE statement was executed against `path` for row `i` (id `id`). -/
  | update (path : String) (i : Nat) (id : Int)
  /-- Log: row `i` (id `id`) failed; failure counter incremented. -/
  | logRowFail (i : Nat) (id : Int)
  /-- Periodic progress log after row `i` (source logs `i+1`/total). -/
  | logProgress (i : Nat)
  /-- `conn.commit()` succeeded. -/
  | commit
  /-- `conn.rollback()` was executed by the `psycopg2.Error` handler. -/
  | rollback
  /-- Log: final tally, `succ` succeeded and `fail` failed. -/
  | logTally (succ fail : Nat)
  /-- Log: database operation failed (`psycopg2.Error` handler). -/
  | logDbError
  /-- Log: batch refresh exception (generic `except Exception` handler). -/
  | logGenericError
  /-- The connection was closed (`finally` block). -/
  | close
deriving Repr, DecidableEq

/-- Outcome of processing one row: `true` iff the success counter is
incremented (embedding call returned and the UPDATE executed without
raising). -/
def rowOutcome (cfg : VectorConfig) (w : DbWorld) (i : Nat) (row : Row) : Bool :=
  match (call_vector_service cfg row.text (w.net i)).value with
  | .ok _ => w.updateOk i
  | .error _ => false

/-- Events emitted while processing one row at 0-based position `i`. -/
def rowEvents (cfg : VectorConfig) (w : DbWorld) (path : String) (i : Nat)
    (row : Row) : List Event :=
  Event.attempt i ::
    ((if (call_vector_service cfg row.text (w.net i)).networkCalled then
        [Event.networkCall i]
      else []) ++
      match (call_vector_service cfg row.text (w.net i)).value with
      | .ok _ =>
        Event.update path i row.id ::
          (if w.updateOk i then
            if (i + 1) % 10 == 0 then [Event.logProgress i] else []
          else [Event.logRowFail i row.id])
      | .error _ => [Event.logRowFail i row.id])

/-- The processing loop from position `i` on: success count, failure count,
and emitted events. -/
def processFrom (cfg : VectorConfig) (w : DbWorld) (path : String) :
    Nat → List Row → Nat × Nat × List Event
  | _, [] => (0, 0, [])
  | i, row :: rest =>
    if rowOutcome cfg w i row then
      ((processFrom cfg w path (i + 1) rest).1 + 1,
        (processFrom cfg w path (i + 1) rest).2.1,
        rowEvents cfg w path i row ++ (processFrom cfg w path (i + 1) rest).2.2)
    else
      ((processFrom cfg w path (i + 1) rest).1,
        (processFrom cfg w path (i + 1) rest).2.1 + 1,
        rowEvents cfg w path i row ++ (processFrom cfg w path (i + 1) rest).2.2)

/-- Final state of one job: counters and the chronological event trace. -/
structure JobResult where
  succ : Nat
  fail : Nat
  trace : List Event

/-- `batch_refresh_embeddings(params)`: connect, resolve the table, fetch
rows, process each row with per-row fault isolation, commit once, and close
the connection in the `finally` block on every path on which it was opened. -/
def batch_refresh_embeddings (cfg : VectorConfig)
    (params : RefreshEmbeddingParams) (w : DbWorld) : JobResult :=
  if !w.connectOk then
    -- connect raised: conn is None, the handler logs, finally skips close
    { succ := 0, fail := 0, trace := [.logDbError] }
  else
    match w.registerFail with
    | some .dbErr =>
      { succ := 0, fail := 0, trace := [.connect, .rollback, .logDbError, .close] }
    | some .otherErr =>
      { succ := 0, fail := 0, trace := [.connect, .logGenericError, .close] }
    | none =>
      if !w.resolveOk then
        { succ := 0, fail := 0, trace := [.connect, .rollback, .logDbError, .close] }
      else
        match resolveTable w.tables params.table_name with
        | none =>
          if !w.listOk then
            { succ := 0, fail := 0,
              trace := [.connect, .logNoMatch, .rollback, .logDbError, .close] }
          else if w.tables.isEmpty then
            { succ := 0, fail := 0,
              trace := [.connect, .logNoMatch, .logNoTables, .close] }
          else
            { succ := 0, fail := 0,
              trace := [.connect, .logNoMatch,
                        .logAllTables (sortTables w.tables), .close] }
        | some actual =>
          let path := fullPath actual
          if !w.fetchOk then
            { succ := 0, fail := 0,
              trace := [.connect, .logMatched path, .rollback, .logDbError, .close] }
          else
            let n := w.rows.length
            if n == 0 then
              { succ := 0, fail := 0,
                trace := [.connect, .logMatched path, .fetch path 0,
                          .logNothingToDo, .close] }
            else
              let res := processFrom cfg w path 0 w.rows
              if w.commitOk then
                { succ := res.1, fail := res.2.1,
                  trace := [.connect, .logMatched path, .fetch path n] ++
                    res.2.2 ++ [.commit, .logTally res.1 res.2.1, .close] }
              else
                { succ := res.1, fail := res.2.1,
                  trace := [.connect, .logMatched path, .fetch path n] ++
                    res.2.2 ++ [.rollback, .logDbError, .close] }

/-- Response of the `/health` endpoint: fixed strings plus
`bool(VECTOR_SERVICE_URL)`. -/
structure HealthResponse where
  status : String
  service : String
  vector_service_configured : Bool
deriving Repr, DecidableEq

/-- `health_check()`. -/
def health_check (cfg : VectorConfig) : HealthResponse :=
  { status := "healthy"
    service := "pg-embedding-refresher"
    vector_service_configured := truthyOpt cfg.url }

/-- The 0-based row position an event belongs to (`none` for job-level
events). -/
def eventIdx : Event → Option Nat
  | .attempt i => some i
  | .networkCall i => some i
  | .update _ i _ => some i
  | .logRowFail i _ => some i
  | .logProgress i => some i
  | _ => none

/-- The table path an event queried (`fetch` and `update` events), if any. -/
def eventPath : Event → Option String
  | .fetch path _ => some path
  | .update path _ _ => some path
  | _ => none

/-! ## Concrete fixtures -/

/-- A well-formed embedding-service response body. -/
def goodBody : Json :=
  .obj [("data", .arr [.obj [("embedding", .arr [.num 1, .num 2, .num 3])]])]

/-- A body whose `data` array's first element is a number, not an object. -/
def badElemBody : Json := .obj [("data", .arr [.num 5])]

def cfgFull : VectorConfig :=
  ⟨some "http://vector.example/embed", some "model-a", some "acct-1"⟩

def cfgNoModel : VectorConfig :=
  ⟨some "http://vector.example/embed", none, some "acct-1"⟩

def cfgUrlOnly : VectorConfig :=
  ⟨some "http://vector.example/embed", none, none⟩

def pDocs : RefreshEmbeddingParams :=
  ⟨"10.0.0.5", 5432, "svc", "secret", "nlp", "Docs", "text_content", "embedding"⟩

def pMissing : RefreshEmbeddingParams :=
  ⟨"10.0.0.5", 5432, "svc", "secret", "nlp", "missing", "text_content", "embedding"⟩

def wDocs : DbWorld :=
  { connectOk := true, registerFail := none, resolveOk := true,
    tables := ["docs"], listOk := true, fetchOk := true,
    rows := [⟨1, some "hello"⟩, ⟨2, none⟩, ⟨3, some "world"⟩],
    updateOk := fun _ => true, net := fun _ => .httpOk goodBody,
    commitOk := true }

def wNoRows : DbWorld :=
  { connectOk := true, registerFail := none, resolveOk := true,
    tables := ["docs"], listOk := true, fetchOk := true,
    rows := [], updateOk := fun _ => true, net := fun _ => .httpOk goodBody,
    commitOk := true }

def wTwoTables : DbWorld :=
  { connectOk := true, registerFail := none, resolveOk := true,
    tables := ["users", "docs"], listOk := true, fetchOk := true,
    rows := [], updateOk := fun _ => true, net := fun _ => .httpOk goodBody,
    commitOk := true }

/-! ## Lemmas about one row's events -/

theorem rowEvents_subset (cfg : VectorConfig) (w : DbWorld) (path : String)
    (m : Nat) (r : Row) :
    rowEvents cfg w path m r ⊆
      [Event.attempt m, Event.networkCall m, Event.update path m r.id,
        Event.logRowFail m r.id, Event.logProgress m] := by
  intro e he
  unfold rowEvents at he
  simp only [List.mem_cons, List.mem_append] at he
  rcases he with rfl | he | he
  · simp
  · split at he <;> simp_all
  · split at he
    · simp only [List.mem_cons] at he
      rcases he with rfl | he
      · simp
      · split at he
        · split at he <;> simp_all
        · simp_all
    · simp_all

theorem eventIdx_of_mem_rowEvents {cfg : VectorConfig} {w : DbWorld}
    {path : String} {m : Nat} {r : Row} {e : Event}
    (h : e ∈ rowEvents cfg w path m r) : eventIdx e = some m := by
  have h5 := rowEvents_subset cfg w path m r h
  simp only [List.mem_cons, List.not_mem_nil, or_false] at h5
  rcases h5 with rfl | rfl | rfl | rfl | rfl <;> rfl

theorem attempt_mem_rowEvents (cfg : VectorConfig) (w : DbWorld)
    (path : String) (m : Nat) (r : Row) :
    Event.attempt m ∈ rowEvents cfg w path m r := by
  unfold rowEvents; exact List.mem_cons_self _ _

theorem logRowFail_mem_rowEvents {cfg : VectorConfig} {w : DbWorld}
    {path : String} {m : Nat} {r : Row}
    (h : rowOutcome cfg w m r = false) :
    Event.logRowFail m r.id ∈ rowEvents cfg w path m r := by
  unfold rowOutcome at h
  unfold rowEvents
  cases hv : (call_vector_service cfg r.text (w.net m)).value with
  | error err => simp [hv]
  | ok v =>
    rw [hv] at h
    simp only [] at h
    simp [hv, h]

theorem networkCalled_of_networkCall_mem_rowEvents {cfg : VectorConfig}
    {w : DbWorld} {path : String} {m k : Nat} {r : Row}
    (h : Event.networkCall k ∈ rowEvents cfg w path m r) :
    (call_vector_service cfg r.text (w.net m)).networkCalled = true := by
  unfold rowEvents at h
  simp only [List.mem_cons, List.mem_append] at h
  rcases h with h | h | h
  · simp_all
  · split at h <;> simp_all
  · split at h
    · simp only [List.mem_cons] at h
      rcases h with h | h
      · simp_all
      · split at h
        · split at h <;> simp_all
        · simp_all
    · simp_all

theorem rowEvents_split (cfg : VectorConfig) (w : DbWorld) (path : String)
    (i : Nat) (rs : List Row) (row : Row) :
    (processFrom cfg w path i (row :: rs)).2.2 =
      rowEvents cfg w path i row ++ (processFrom cfg w path (i + 1) rs).2.2 := by
  simp only [processFrom]
  split <;> rfl

theorem call_ok_of_update_mem_rowEvents {cfg : VectorConfig} {w : DbWorld}
    {path : String} {m k : Nat} {r : Row} {t : String} {i : Int}
    (h : Event.update t k i ∈ rowEvents cfg w path m r) :
    t = path ∧ k = m ∧ i = r.id ∧
      ∃ v, (call_vector_service cfg r.text (w.net m)).value = .ok v := by
  unfold rowEvents at h
  simp only [List.mem_cons, List.mem_append] at h
  rcases h with h | h | h
  · simp_all
  · split at h <;> simp_all
  · split at h
    · simp only [List.mem_cons] at h
      rcases h with h | h
      · cases h
        exact ⟨rfl, rfl, rfl, _, by assumption⟩
      · split at h
        · split at h <;> simp_all
        · simp_all
    · simp_all

/-! ## Lemmas about the processing loop -/

theorem processFrom_sum (cfg : VectorConfig) (w : DbWorld) (path : String) :
    ∀ (i : Nat) (rs : List Row),
    (processFrom cfg w path i rs).1 + (processFrom cfg w path i rs).2.1 =
      rs.length := by
  intro i rs
  induction rs generalizing i with
  | nil => rfl
  | cons row rest ih =>
    have h := ih (i + 1)
    unfold processFrom
    split <;> simp <;> omega

theorem processFrom_succ_count (cfg : VectorConfig) (w : DbWorld)
    (path : String) :
    ∀ (i : Nat) (rs : List Row),
    (processFrom cfg w path i rs).1 =
      List.countP (fun p => rowOutcome cfg w p.1 p.2) (List.enumFrom i rs) := by
  intro i rs
  induction rs generalizing i with
  | nil => rfl
  | cons row rest ih =>
    have h := ih (i + 1)
    unfold processFrom
    rw [List.enumFrom_cons, List.countP_cons]
    split <;> rename_i hout <;> simp [hout] <;> omega

theorem processFrom_fail_count (cfg : VectorConfig) (w : DbWorld)
    (path : String) :
    ∀ (i : Nat) (rs : List Row),
    (processFrom cfg w path i rs).2.1 =
      List.countP (fun p => !rowOutcome cfg w p.1 p.2) (List.enumFrom i rs) := by
  intro i rs
  induction rs generalizing i with
  | nil => rfl
  | cons row rest ih =>
    have h := ih (i + 1)
    unfold processFrom
    rw [List.enumFrom_cons, List.countP_cons]
    split <;> rename_i hout <;> simp [hout] <;> omega

theorem mem_processFrom (cfg : VectorConfig) (w : DbWorld) (path : String) :
    ∀ (i : Nat) (rs : List Row) (e : Event),
    e ∈ (processFrom cfg w path i rs).2.2 ↔
      ∃ m r, rs[m]? = some r ∧ e ∈ rowEvents cfg w path (i + m) r := by
  intro i rs
  induction rs generalizing i with
  | nil =>
    intro e
    simp [processFrom]
  | cons row rest ih =>
    intro e
    rw [rowEvents_split, List.mem_append]
    constructor
    · rintro (h | h)
      · exact ⟨0, row, by simp, by simpa using h⟩
      · obtain ⟨m, r, hr, hm⟩ := (ih (i + 1) e).mp h
        refine ⟨m + 1, r, by simpa using hr, ?_⟩
        have harith : i + (m + 1) = (i + 1) + m := by omega
        rw [harith]; exact hm
    · rintro ⟨m, r, hr, hm⟩
      cases m with
      | zero =>
        simp only [List.getElem?_cons_zero, Option.some.injEq] at hr
        subst hr
        exact Or.inl (by simpa using hm)
      | succ m' =>
        refine Or.inr ((ih (i + 1) e).mpr ⟨m', r, by simpa using hr, ?_⟩)
        have harith : (i + 1) + m' = i + (m' + 1) := by omega
        rw [harith]; exact hm

theorem close_not_mem_processFrom (cfg : VectorConfig) (w : DbWorld)
    (path : String) (i : Nat) (rs : List Row) :
    Event.close ∉ (processFrom cfg w path i rs).2.2 := by
  intro h
  obtain ⟨m, r, _, hm⟩ := (mem_processFrom cfg w path i rs _).mp h
  have := eventIdx_of_mem_rowEvents hm
  simp [eventIdx] at this

theorem attempt_mem_processFrom {cfg : VectorConfig} {w : DbWorld}
    {path : String} {i : Nat} {rs : List Row} {k : Nat}
    (h1 : i ≤ k) (h2 : k < i + rs.length) :
    Event.attempt k ∈ (processFrom cfg w path i rs).2.2 := by
  have hm : k - i < rs.length := by omega
  refine (mem_processFrom cfg w path i rs _).mpr
    ⟨k - i, _, List.getElem?_eq_getElem hm, ?_⟩
  have harith : i + (k - i) = k := by omega
  rw [harith]
  exact attempt_mem_rowEvents cfg w path k _

theorem logRowFail_mem_processFrom {cfg : VectorConfig} {w : DbWorld}
    {path : String} {i : Nat} {rs : List Row} {m : Nat} {r : Row}
    (hr : rs[m]? = some r) (hf : rowOutcome cfg w (i + m) r = false) :
    Event.logRowFail (i + m) r.id ∈ (processFrom cfg w path i rs).2.2 :=
  (mem_processFrom cfg w path i rs _).mpr
    ⟨m, r, hr, logRowFail_mem_rowEvents hf⟩

theorem networkCall_not_mem_processFrom {cfg : VectorConfig} {w : DbWorld}
    {path : String} {i : Nat} {rs : List Row} {k : Nat}
    (h : ∀ m r, rs[m]? = some r → i + m = k →
      (call_vector_service cfg r.text (w.net k)).networkCalled = false) :
    Event.networkCall k ∉ (processFrom cfg w path i rs).2.2 := by
  intro hmem
  obtain ⟨m, r, hr, hm⟩ := (mem_processFrom cfg w path i rs _).mp hmem
  have hk := eventIdx_of_mem_rowEvents hm
  simp only [eventIdx, Option.some.injEq] at hk
  subst hk
  have htrue := networkCalled_of_networkCall_mem_rowEvents hm
  rw [h m r hr rfl] at htrue
  cases htrue

theorem update_not_mem_processFrom {cfg : VectorConfig} {w : DbWorld}
    {path : String} {i : Nat} {rs : List Row} {k : Nat}
    (h : ∀ m r, rs[m]? = some r → i + m = k →
      ∃ err, (call_vector_service cfg r.text (w.net k)).value = .error err)
    (t : String) (id : Int) :
    Event.update t k id ∉ (processFrom cfg w path i rs).2.2 := by
  intro hmem
  obtain ⟨m, r, hr, hm⟩ := (mem_processFrom cfg w path i rs _).mp hmem
  obtain ⟨_, hk, _, v, hv⟩ := call_ok_of_update_mem_rowEvents hm
  subst hk
  obtain ⟨err, herr⟩ := h m r hr rfl
  rw [herr] at hv
  cases hv

theorem processFrom_succ_eq_zero {cfg : VectorConfig} {w : DbWorld}
    {path : String} :
    ∀ {i : Nat} {rs : List Row},
    (∀ m r, rs[m]? = some r → rowOutcome cfg w (i + m) r = false) →
    (processFrom cfg w path i rs).1 = 0 := by
  intro i rs
  induction rs generalizing i with
  | nil => intro _; rfl
  | cons row rest ih =>
    intro h
    have h0 : rowOutcome cfg w i row = false := by simpa using h 0 row (by simp)
    unfold processFrom
    rw [h0]
    simp only [Bool.false_eq_true, if_false]
    exact ih fun m r hr => by
      have harith : (i + 1) + m = i + (m + 1) := by omega
      rw [harith]
      exact h (m + 1) r (by simpa using hr)

/-! ## Lemmas about sorting and table resolution -/

theorem insertSorted_perm (x : String) (l : List String) :
    List.Perm (insertSorted x l) (x :: l) := by
  induction l with
  | nil => exact List.Perm.refl _
  | cons y ys ih =>
    unfold insertSorted
    split
    · exact List.Perm.refl _
    · exact (ih.cons y).trans (List.Perm.swap x y ys)

theorem sortTables_perm (l : List String) : List.Perm (sortTables l) l := by
  induction l with
  | nil => exact List.Perm.refl _
  | cons x xs ih => exact (insertSorted_perm x (sortTables xs)).trans (ih.cons x)

theorem resolveTable_isSome {tables : List String} {req t : String}
    (ht : t ∈ tables) (hcase : sqlLower req = sqlLower t) :
    ∃ a, resolveTable tables req = some a := by
  have hs : (tables.find? fun u => sqlLower u == sqlLower req).isSome :=
    List.find?_isSome.mpr ⟨t, ht, by simp [hcase]⟩
  exact Option.isSome_iff_exists.mp hs

theorem resolveTable_mem {tables : List String} {req a : String}
    (h : resolveTable tables req = some a) : a ∈ tables :=
  List.mem_of_find?_eq_some h

theorem resolveTable_matches {tables : List String} {req a : String}
    (h : resolveTable tables req = some a) : sqlLower a = sqlLower req := by
  have := List.find?_some h
  simpa using this

theorem resolveTable_congr {tables : List String} {req req' : String}
    (h : sqlLower req' = sqlLower req) :
    resolveTable tables req' = resolveTable tables req := by
  simp only [resolveTable, h]

/-! ## Reduction lemmas for the job's control flow -/

theorem batch_processing_eq (cfg : VectorConfig) (p : RefreshEmbeddingParams)
    (w : DbWorld) (a : String)
    (hconn : w.connectOk = true) (hreg : w.registerFail = none)
    (hres : w.resolveOk = true)
    (hmatch : resolveTable w.tables p.table_name = some a)
    (hfetch : w.fetchOk = true) (hrows : w.rows ≠ []) :
    batch_refresh_embeddings cfg p w =
      { succ := (processFrom cfg w (fullPath a) 0 w.rows).1
        fail := (processFrom cfg w (fullPath a) 0 w.rows).2.1
        trace :=
          [Event.connect, Event.logMatched (fullPath a),
            Event.fetch (fullPath a) w.rows.length] ++
          (processFrom cfg w (fullPath a) 0 w.rows).2.2 ++
          (if w.commitOk then
            [Event.commit,
              Event.logTally (processFrom cfg w (fullPath a) 0 w.rows).1
                (processFrom cfg w (fullPath a) 0 w.rows).2.1,
              Event.close]
          else [Event.rollback, Event.logDbError, Event.close]) } := by
  have hn : (w.rows.length == 0) = false := by
    simp [List.length_eq_zero]
    exact hrows
  cases hcommit : w.commitOk <;>
    simp [batch_refresh_embeddings, hconn, hreg, hres, hmatch, hfetch, hn,
      hcommit]

theorem batch_zero_rows_eq (cfg : VectorConfig) (p : RefreshEmbeddingParams)
    (w : DbWorld) (a : String)
    (hconn : w.connectOk = true) (hreg : w.registerFail = none)
    (hres : w.resolveOk = true)
    (hmatch : resolveTable w.tables p.table_name = some a)
    (hfetch : w.fetchOk = true) (hrows : w.rows = []) :
    batch_refresh_embeddings cfg p w =
      { succ := 0, fail := 0
        trace := [Event.connect, Event.logMatched (fullPath a),
          Event.fetch (fullPath a) 0, Event.logNothingToDo, Event.close] } := by
  simp [batch_refresh_embeddings, hconn, hreg, hres, hmatch, hfetch, hrows]

/-! ## Claims -/

/-- C1: for every job that opens its connection, resolves its table and
fetches N rows (N ≥ 0), the job's final success counter plus failure counter
equals N; moreover the success counter counts exactly the rows whose
processing succeeded and the failure counter exactly the rows whose
processing failed, so each fetched row increments exactly one of the two
counters, exactly once. -/
theorem C1_success_plus_failure_equals_total (cfg : VectorConfig)
    (p : RefreshEmbeddingParams) (w : DbWorld) (a : String)
    (hconn : w.connectOk = true) (hreg : w.registerFail = none)
    (hres : w.resolveOk = true)
    (hmatch : resolveTable w.tables p.table_name = some a)
    (hfetch : w.fetchOk = true) :
    (batch_refresh_embeddings cfg p w).succ +
        (batch_refresh_embeddings cfg p w).fail = w.rows.length ∧
    (batch_refresh_embeddings cfg p w).succ =
      List.countP (fun q => rowOutcome cfg w q.1 q.2)
        (List.enumFrom 0 w.rows) ∧
    (batch_refresh_embeddings cfg p w).fail =
      List.countP (fun q => !rowOutcome cfg w q.1 q.2)
        (List.enumFrom 0 w.rows) := by
  by_cases hrows : w.rows = []
  · rw [batch_zero_rows_eq cfg p w a hconn hreg hres hmatch hfetch hrows]
    simp [hrows]
  · rw [batch_processing_eq cfg p w a hconn hreg hres hmatch hfetch hrows]
    exact ⟨processFrom_sum cfg w (fullPath a) 0 w.rows,
      processFrom_succ_count cfg w (fullPath a) 0 w.rows,
      processFrom_fail_count cfg w (fullPath a) 0 w.rows⟩

/-- C1 witness: the three-row job (`wDocs`, one null text) ends with
success + failure = 3. -/
theorem C1_witness :
    (batch_refresh_embeddings cfgFull pDocs wDocs).succ +
      (batch_refresh_embeddings cfgFull pDocs wDocs).fail = 3 :=
  (C1_success_plus_failure_equals_total cfgFull pDocs wDocs "docs"
    rfl rfl rfl (by decide) rfl).1

/-- C2: if the row at position i fails (embedding call or update statement),
every later row j is still attempted, the failure is logged with the row's
identifier, and the failure counter counts every failing row — no early
termination. -/
theorem C2_no_early_termination (cfg : VectorConfig)
    (p : RefreshEmbeddingParams) (w : DbWorld) (a : String)
    (hconn : w.connectOk = true) (hreg : w.registerFail = none)
    (hres : w.resolveOk = true)
    (hmatch : resolveTable w.tables p.table_name = some a)
    (hfetch : w.fetchOk = true)
    (i j : Nat) (r : Row) (hij : i < j) (hj : j < w.rows.length)
    (hri : w.rows[i]? = some r)
    (hifail : rowOutcome cfg w i r = false) :
    Event.attempt j ∈ (batch_refresh_embeddings cfg p w).trace ∧
    Event.logRowFail i r.id ∈ (batch_refresh_embeddings cfg p w).trace ∧
    (batch_refresh_embeddings cfg p w).fail =
      List.countP (fun q => !rowOutcome cfg w q.1 q.2)
        (List.enumFrom 0 w.rows) := by
  have hne : w.rows ≠ [] := by
    intro h
    rw [h] at hj
    simp at hj
  rw [batch_processing_eq cfg p w a hconn hreg hres hmatch hfetch hne]
  refine ⟨?_, ?_, processFrom_fail_count cfg w (fullPath a) 0 w.rows⟩
  · have hmem : Event.attempt j ∈ (processFrom cfg w (fullPath a) 0 w.rows).2.2 :=
      attempt_mem_processFrom (Nat.zero_le j) (by omega)
    exact List.mem_append.mpr (Or.inl (List.mem_append.mpr (Or.inr hmem)))
  · have hmem : Event.logRowFail i r.id ∈
        (processFrom cfg w (fullPath a) 0 w.rows).2.2 := by
      have := @logRowFail_mem_processFrom cfg w (fullPath a) 0 w.rows i r
        hri (by simpa using hifail)
      simpa using this
    exact List.mem_append.mpr (Or.inl (List.mem_append.mpr (Or.inr hmem)))

/-- C2 witness: in the three-row job `wDocs` row 1 (null text) fails, and row
2 is still attempted. -/
theorem C2_witness :
    Event.attempt 2 ∈ (batch_refresh_embeddings cfgFull pDocs wDocs).trace :=
  (C2_no_early_termination cfgFull pDocs wDocs "docs" rfl rfl rfl (by decide)
    rfl 1 2 ⟨2, none⟩ (by decide) (by decide) rfl (by decide)).1

/-- C3: whenever the database connection is successfully opened, the job's
trace closes the connection exactly once, and closing it is the very last
event — the job never terminates with the connection open, on any exit path
(normal completion, table not found, zero rows, database error with
rollback, any other exception). -/
theorem C3_connection_closed_exactly_once (cfg : VectorConfig)
    (p : RefreshEmbeddingParams) (w : DbWorld)
    (hconn : w.connectOk = true) :
    (batch_refresh_embeddings cfg p w).trace.count Event.close = 1 ∧
    (batch_refresh_embeddings cfg p w).trace.getLast? = some Event.close := by
  rcases hreg : w.registerFail with _ | k
  case some =>
    cases k <;>
      simp [batch_refresh_embeddings, hconn, hreg, List.count_cons,
        List.getLast?]
  case none =>
    cases hres : w.resolveOk
    case false =>
      simp [batch_refresh_embeddings, hconn, hreg, hres, List.count_cons,
        List.getLast?]
    case true =>
      rcases hmatch : resolveTable w.tables p.table_name with _ | a
      case none =>
        cases hlist : w.listOk
        case false =>
          simp [batch_refresh_embeddings, hconn, hreg, hres, hmatch, hlist,
            List.count_cons, List.getLast?]
        case true =>
          rcases htab : w.tables with _ | ⟨t, ts⟩ <;>
            rw [htab] at hmatch <;>
            simp [batch_refresh_embeddings, hconn, hreg, hres, hmatch, hlist,
              htab, List.count_cons, List.getLast?]
      case some =>
        cases hfetch : w.fetchOk
        case false =>
          simp [batch_refresh_embeddings, hconn, hreg, hres, hmatch, hfetch,
            List.count_cons, List.getLast?]
        case true =>
          by_cases hrows : w.rows = []
          case pos =>
            rw [batch_zero_rows_eq cfg p w a hconn hreg hres hmatch hfetch
              hrows]
            simp [List.count_cons, List.getLast?]
          case neg =>
            rw [batch_processing_eq cfg p w a hconn hreg hres hmatch hfetch
              hrows]
            have hnc := close_not_mem_processFrom cfg w (fullPath a) 0 w.rows
            cases hcommit : w.commitOk <;>
              simp [hcommit, List.count_append, List.count_cons,
                List.count_eq_zero_of_not_mem hnc, List.getLast?_append,
                List.getLast?]

/-- C3 witness: the three-row job `wDocs` closes its connection exactly once,
as the final event. -/
theorem C3_witness :
    (batch_refresh_embeddings cfgFull pDocs wDocs).trace.count Event.close
        = 1 ∧
    (batch_refresh_embeddings cfgFull pDocs wDocs).trace.getLast?
        = some Event.close :=
  C3_connection_closed_exactly_once cfgFull pDocs wDocs rfl

/-- C4 counterexample: on a zero-row fetch the source returns early: the
job logs "nothing to do" but, contrary to the claim, never issues the
end-of-job commit and never logs a final tally. -/
theorem C4_counterexample :
    Event.logNothingToDo ∈ (batch_refresh_embeddings cfgFull pDocs wNoRows).trace ∧
    Event.commit ∉ (batch_refresh_embeddings cfgFull pDocs wNoRows).trace ∧
    (∀ s f, Event.logTally s f ∉
      (batch_refresh_embeddings cfgFull pDocs wNoRows).trace) := by
  have htr : (batch_refresh_embeddings cfgFull pDocs wNoRows).trace =
      [Event.connect, Event.logMatched "public.docs",
        Event.fetch "public.docs" 0, Event.logNothingToDo, Event.close] := by
    decide
  refine ⟨?_, ?_, ?_⟩
  · rw [htr]; simp
  · rw [htr]; simp
  · intro s f; rw [htr]; simp

/-- C4 (amended): for every job whose fetch returns zero rows, the engine
logs "nothing to do" and returns directly to cleanup: the connection is
closed as the final event, but no commit (and no rollback) is issued and no
final success/failure tally is logged. -/
theorem C4_zero_rows_skips_commit_and_tally (cfg : VectorConfig)
    (p : RefreshEmbeddingParams) (w : DbWorld) (a : String)
    (hconn : w.connectOk = true) (hreg : w.registerFail = none)
    (hres : w.resolveOk = true)
    (hmatch : resolveTable w.tables p.table_name = some a)
    (hfetch : w.fetchOk = true) (hrows : w.rows = []) :
    Event.logNothingToDo ∈ (batch_refresh_embeddings cfg p w).trace ∧
    (batch_refresh_embeddings cfg p w).trace.getLast? = some Event.close ∧
    Event.commit ∉ (batch_refresh_embeddings cfg p w).trace ∧
    Event.rollback ∉ (batch_refresh_embeddings cfg p w).trace ∧
    (∀ s f, Event.logTally s f ∉ (batch_refresh_embeddings cfg p w).trace) := by
  rw [batch_zero_rows_eq cfg p w a hconn hreg hres hmatch hfetch hrows]
  refine ⟨by simp, by simp [List.getLast?], by simp, by simp, ?_⟩
  intro s f
  simp

/-- C4 witness: the zero-row job `wNoRows` logs "nothing to do" and issues no
commit. -/
theorem C4_witness :
    Event.logNothingToDo ∈
        (batch_refresh_embeddings cfgFull pDocs wNoRows).trace ∧
    Event.commit ∉ (batch_refresh_embeddings cfgFull pDocs wNoRows).trace := by
  have h := C4_zero_rows_skips_commit_and_tally cfgFull pDocs wNoRows "docs"
    rfl rfl rfl (by decide) rfl rfl
  exact ⟨h.1, h.2.2.1⟩

/-- Every queried table path in one job's trace is the resolved fully
qualified path (supports C5). -/
theorem eventPath_of_mem_batch (cfg : VectorConfig)
    (p : RefreshEmbeddingParams) (w : DbWorld) (a : String)
    (hmatch : resolveTable w.tables p.table_name = some a) :
    ∀ e ∈ (batch_refresh_embeddings cfg p w).trace,
      ∀ q, eventPath e = some q → q = fullPath a := by
  intro e he q hq
  cases hconn : w.connectOk
  case false =>
    simp [batch_refresh_embeddings, hconn] at he
    rw [he] at hq
    cases hq
  case true =>
  rcases hreg : w.registerFail with _ | k
  case some =>
    cases k <;>
      simp [batch_refresh_embeddings, hconn, hreg] at he <;>
      rcases he with rfl | rfl | rfl | rfl <;> cases hq
  case none =>
  cases hres : w.resolveOk
  case false =>
    simp [batch_refresh_embeddings, hconn, hreg, hres] at he
    rcases he with rfl | rfl | rfl | rfl <;> cases hq
  case true =>
  cases hfetch : w.fetchOk
  case false =>
    simp [batch_refresh_embeddings, hconn, hreg, hres, hmatch, hfetch] at he
    rcases he with rfl | rfl | rfl | rfl | rfl <;> cases hq
  case true =>
  by_cases hrows : w.rows = []
  case pos =>
    rw [batch_zero_rows_eq cfg p w a hconn hreg hres hmatch hfetch hrows]
      at he
    simp at he
    rcases he with rfl | rfl | rfl | rfl | rfl <;>
      simp [eventPath] at hq
    exact hq.symm
  case neg =>
    rw [batch_processing_eq cfg p w a hconn hreg hres hmatch hfetch hrows]
      at he
    simp only [List.append_assoc, List.mem_append, List.mem_cons,
      List.not_mem_nil, or_false] at he
    rcases he with (rfl | rfl | rfl) | he | he
    · cases hq
    · cases hq
    · simp [eventPath] at hq
      exact hq.symm
    · obtain ⟨m, r, hr, hm⟩ :=
        (mem_processFrom cfg w (fullPath a) 0 w.rows e).mp he
      have h5 := rowEvents_subset cfg w (fullPath a) (0 + m) r hm
      simp only [List.mem_cons, List.not_mem_nil, or_false] at h5
      rcases h5 with rfl | rfl | rfl | rfl | rfl <;>
        simp [eventPath] at hq
      exact hq.symm
    · split at he <;> simp only [List.mem_cons, List.not_mem_nil, or_false]
        at he <;> rcases he with rfl | rfl | rfl <;> cases hq

/-- C5: table resolution is case-insensitive: for a stored base table t and
any requested name equal to t's name up to letter case, resolution succeeds
with a stored table name that is a case variant of the request, every
case-variant request resolves identically, and the resulting fully-qualified
path `public.name` is the one used by every subsequent query (fetch and
update) of the job. -/
theorem C5_case_insensitive_resolution (cfg : VectorConfig)
    (p : RefreshEmbeddingParams) (w : DbWorld) (t : String)
    (ht : t ∈ w.tables) (hcase : sqlLower p.table_name = sqlLower t) :
    ∃ a, resolveTable w.tables p.table_name = some a ∧ a ∈ w.tables ∧
      sqlLower a = sqlLower t ∧
      (∀ req', sqlLower req' = sqlLower p.table_name →
        resolveTable w.tables req' = resolveTable w.tables p.table_name) ∧
      (∀ e ∈ (batch_refresh_embeddings cfg p w).trace,
        ∀ q, eventPath e = some q → q = fullPath a) := by
  obtain ⟨a, ha⟩ := resolveTable_isSome ht hcase
  refine ⟨a, ha, resolveTable_mem ha, ?_, ?_, ?_⟩
  · exact (resolveTable_matches ha).trans hcase
  · intro req' h
    exact resolveTable_congr h
  · exact eventPath_of_mem_batch cfg p w a ha

/-- C5 witness: requesting `"Docs"` against stored table `docs` resolves, and
the three-row job's queries all use `public.docs`. -/
theorem C5_witness :
    ∃ a, resolveTable wDocs.tables pDocs.table_name = some a ∧
      a ∈ wDocs.tables ∧ sqlLower a = sqlLower "docs" := by
  obtain ⟨a, h1, h2, h3, _, _⟩ :=
    C5_case_insensitive_resolution cfgFull pDocs wDocs "docs" (by decide)
      (by decide)
  exact ⟨a, h1, h2, h3⟩

/-- C6: when no base table matches case-insensitively, the job performs zero
update statements, logs the no-match diagnostic, logs a listing holding
exactly the base tables of the schema (with the empty schema logged
distinctly), and ends by closing the connection without any hard error. -/
theorem C6_no_match_diagnostics (cfg : VectorConfig)
    (p : RefreshEmbeddingParams) (w : DbWorld)
    (hconn : w.connectOk = true) (hreg : w.registerFail = none)
    (hres : w.resolveOk = true)
    (hmatch : resolveTable w.tables p.table_name = none)
    (hlist : w.listOk = true) :
    (∀ path k id, Event.update path k id ∉
      (batch_refresh_embeddings cfg p w).trace) ∧
    Event.logNoMatch ∈ (batch_refresh_embeddings cfg p w).trace ∧
    (w.tables = [] →
      Event.logNoTables ∈ (batch_refresh_embeddings cfg p w).trace ∧
      ∀ l, Event.logAllTables l ∉ (batch_refresh_embeddings cfg p w).trace) ∧
    (w.tables ≠ [] →
      Event.logAllTables (sortTables w.tables) ∈
          (batch_refresh_embeddings cfg p w).trace ∧
      List.Perm (sortTables w.tables) w.tables ∧
      Event.logNoTables ∉ (batch_refresh_embeddings cfg p w).trace) ∧
    (batch_refresh_embeddings cfg p w).trace.getLast? = some Event.close ∧
    Event.logDbError ∉ (batch_refresh_embeddings cfg p w).trace ∧
    Event.logGenericError ∉ (batch_refresh_embeddings cfg p w).trace := by
  rcases htab : w.tables with _ | ⟨t, ts⟩ <;> rw [htab] at hmatch
  · have htr : batch_refresh_embeddings cfg p w =
        { succ := 0, fail := 0,
          trace := [Event.connect, Event.logNoMatch, Event.logNoTables,
            Event.close] } := by
      simp [batch_refresh_embeddings, hconn, hreg, hres, hmatch, hlist, htab]
    rw [htr]
    refine ⟨fun path k id => by simp, by simp, fun _ => ⟨by simp, ?_⟩,
      fun h => absurd rfl h, by simp [List.getLast?], by simp, by simp⟩
    intro l
    simp
  · have htr : batch_refresh_embeddings cfg p w =
        { succ := 0, fail := 0,
          trace := [Event.connect, Event.logNoMatch,
            Event.logAllTables (sortTables (t :: ts)), Event.close] } := by
      simp [batch_refresh_embeddings, hconn, hreg, hres, hmatch, hlist, htab]
    rw [htr]
    refine ⟨fun path k id => by simp, by simp, fun h => by simp at h, ?_,
      by simp [List.getLast?], by simp, by simp⟩
    intro _
    exact ⟨by simp, sortTables_perm (t :: ts), by simp⟩

/-- C6 witness: requesting `"missing"` against stored tables
`{users, docs}` logs the sorted listing `["docs", "users"]` and performs no
updates. -/
theorem C6_witness :
    Event.logNoMatch ∈
        (batch_refresh_embeddings cfgFull pMissing wTwoTables).trace ∧
    Event.logAllTables ["docs", "users"] ∈
        (batch_refresh_embeddings cfgFull pMissing wTwoTables).trace := by
  have h := C6_no_match_diagnostics cfgFull pMissing wTwoTables rfl rfl rfl
    (by decide) rfl
  refine ⟨h.2.1, ?_⟩
  have h2 := (h.2.2.2.1 (by decide)).1
  have hsort : sortTables wTwoTables.tables = ["docs", "users"] := by decide
  rwa [hsort] at h2

/-- If row position k's embedding call makes no network request, the job's
trace has no network-call event for k. -/
theorem networkCall_not_mem_batch (cfg : VectorConfig)
    (p : RefreshEmbeddingParams) (w : DbWorld) (a : String) (k : Nat)
    (hconn : w.connectOk = true) (hreg : w.registerFail = none)
    (hres : w.resolveOk = true)
    (hmatch : resolveTable w.tables p.table_name = some a)
    (hfetch : w.fetchOk = true)
    (h : ∀ m r, w.rows[m]? = some r → m = k →
      (call_vector_service cfg r.text (w.net k)).networkCalled = false) :
    Event.networkCall k ∉ (batch_refresh_embeddings cfg p w).trace := by
  by_cases hrows : w.rows = []
  · rw [batch_zero_rows_eq cfg p w a hconn hreg hres hmatch hfetch hrows]
    simp
  · rw [batch_processing_eq cfg p w a hconn hreg hres hmatch hfetch hrows]
    intro hmem
    simp only [List.append_assoc, List.mem_append, List.mem_cons,
      List.not_mem_nil, or_false] at hmem
    rcases hmem with (h1 | h1 | h1) | h1 | h1
    · simp at h1
    · simp at h1
    · simp at h1
    · exact networkCall_not_mem_processFrom
        (fun m r hr hk => h m r hr (by omega)) h1
    · split at h1 <;> simp at h1

/-- If row position k's embedding call fails, the job's trace has no update
event for k. -/
theorem update_not_mem_batch (cfg : VectorConfig)
    (p : RefreshEmbeddingParams) (w : DbWorld) (a : String) (k : Nat)
    (hconn : w.connectOk = true) (hreg : w.registerFail = none)
    (hres : w.resolveOk = true)
    (hmatch : resolveTable w.tables p.table_name = some a)
    (hfetch : w.fetchOk = true)
    (h : ∀ m r, w.rows[m]? = some r → m = k →
      ∃ err, (call_vector_service cfg r.text (w.net k)).value = .error err)
    (t : String) (id : Int) :
    Event.update t k id ∉ (batch_refresh_embeddings cfg p w).trace := by
  by_cases hrows : w.rows = []
  · rw [batch_zero_rows_eq cfg p w a hconn hreg hres hmatch hfetch hrows]
    simp
  · rw [batch_processing_eq cfg p w a hconn hreg hres hmatch hfetch hrows]
    intro hmem
    simp only [List.append_assoc, List.mem_append, List.mem_cons,
      List.not_mem_nil, or_false] at hmem
    rcases hmem with (h1 | h1 | h1) | h1 | h1
    · simp at h1
    · simp at h1
    · simp at h1
    · exact update_not_mem_processFrom
        (fun m r hr hk => h m r hr (by omega)) t id h1
    · split at h1 <;> simp at h1

/-- C7: if the service URL, model identifier or account identifier is absent,
every embedding call fails immediately with the configuration error and no
network request is attempted; a job over N rows then completes with
success = 0 and failure = N, each row's error caught by the per-row
handler, and the trace holds no network-call event. -/
theorem C7_missing_configuration (cfg : VectorConfig)
    (p : RefreshEmbeddingParams) (w : DbWorld) (a : String)
    (habs : cfg.url = none ∨ cfg.model = none ∨ cfg.user = none)
    (hconn : w.connectOk = true) (hreg : w.registerFail = none)
    (hres : w.resolveOk = true)
    (hmatch : resolveTable w.tables p.table_name = some a)
    (hfetch : w.fetchOk = true) :
    (∀ text net, call_vector_service cfg text net =
      { value := .error .configurationError, networkCalled := false }) ∧
    (batch_refresh_embeddings cfg p w).succ = 0 ∧
    (batch_refresh_embeddings cfg p w).fail = w.rows.length ∧
    (∀ k, Event.networkCall k ∉ (batch_refresh_embeddings cfg p w).trace) := by
  have hcc : configComplete cfg = false := by
    rcases habs with h | h | h <;> simp [configComplete, truthyOpt, h]
  have hcall : ∀ text net, call_vector_service cfg text net =
      { value := .error .configurationError, networkCalled := false } := by
    intro text net
    simp [call_vector_service, hcc]
  have hnetmem : ∀ k, Event.networkCall k ∉
      (batch_refresh_embeddings cfg p w).trace := fun k =>
    networkCall_not_mem_batch cfg p w a k hconn hreg hres hmatch hfetch
      (fun m r _ _ => by rw [hcall])
  by_cases hrows : w.rows = []
  · rw [batch_zero_rows_eq cfg p w a hconn hreg hres hmatch hfetch hrows]
      at hnetmem ⊢
    exact ⟨hcall, rfl, by simp [hrows], hnetmem⟩
  · have hsucc : (processFrom cfg w (fullPath a) 0 w.rows).1 = 0 :=
      processFrom_succ_eq_zero (fun m r _ => by
        simp [rowOutcome, hcall])
    have hsum := processFrom_sum cfg w (fullPath a) 0 w.rows
    rw [batch_processing_eq cfg p w a hconn hreg hres hmatch hfetch hrows]
      at hnetmem ⊢
    exact ⟨hcall, hsucc, by simp; omega, hnetmem⟩

/-- C7 witness: with the model identifier absent, the three-row job ends with
success 0 and failure 3. -/
theorem C7_witness :
    (batch_refresh_embeddings cfgNoModel pDocs wDocs).succ = 0 ∧
    (batch_refresh_embeddings cfgNoModel pDocs wDocs).fail = 3 := by
  have h := C7_missing_configuration cfgNoModel pDocs wDocs "docs"
    (Or.inr (Or.inl rfl)) rfl rfl rfl (by decide) rfl
  exact ⟨h.2.1, h.2.2.1⟩

/-- C8 counterexample: the HTTP-successful body `{"data": [5]}` is not of the
good shape, yet the parse fails with the unknown-error classification (the
attribute access on the non-object element raises `AttributeError`, caught
by the generic handler), not with the malformed-response classification the
claim requires for every bad shape. -/
theorem C8_counterexample :
    specGoodShape badElemBody = none ∧
    parseEmbedding badElemBody = .error .unknownError ∧
    parseEmbedding badElemBody ≠ .error .malformedResponse := by
  refine ⟨rfl, rfl, ?_⟩
  intro h
  rw [show parseEmbedding badElemBody = .error .unknownError from rfl] at h
  simp at h

/-- C8 (amended): the parse returns exactly the first data element's
embedding iff the body holds a `data` array with at least one element whose
first element is an object with a non-empty `embedding` array; every other
body fails — with the malformed-response classification, except that a body
that is not an object, or whose first data element is not an object, fails
with the unknown-error classification (the attribute access raises). -/
theorem C8_parse_classification (j : Json) :
    (∀ e, specGoodShape j = some e ↔ parseEmbedding j = .ok e) ∧
    (specGoodShape j = none →
      (badAttributeAccess j = true →
        parseEmbedding j = .error .unknownError) ∧
      (badAttributeAccess j = false →
        parseEmbedding j = .error .malformedResponse)) := by
  rcases j with _ | b | n | s | elems | fields <;>
    simp [parseEmbedding, specGoodShape, badAttributeAccess, pyGet,
      jsonTruthy, isJsonList]
  rcases hld : lookupField "data" fields with _ | d
  · simp [parseEmbedding, specGoodShape, badAttributeAccess, pyGet,
      jsonTruthy, isJsonList, hld]
  rcases d with _ | b | n | s | delems | df <;>
    simp [parseEmbedding, specGoodShape, badAttributeAccess, pyGet,
      jsonTruthy, isJsonList, hld]
  rcases delems with _ | ⟨x, xs⟩
  · simp [parseEmbedding, specGoodShape, badAttributeAccess, pyGet,
      jsonTruthy, isJsonList, hld]
  rcases x with _ | xb | xn | xstr | xelems | f2 <;>
    simp [parseEmbedding, specGoodShape, badAttributeAccess, pyGet,
      jsonTruthy, isJsonList, hld]
  rcases hle : lookupField "embedding" f2 with _ | e
  · simp [parseEmbedding, specGoodShape, badAttributeAccess, pyGet,
      jsonTruthy, isJsonList, hld, hle]
  rcases e with _ | eb | en | estr | eelems | ef <;>
    simp [parseEmbedding, specGoodShape, badAttributeAccess, pyGet,
      jsonTruthy, isJsonList, hld, hle]
  rcases eelems with _ | ⟨y, ys⟩ <;>
    simp [parseEmbedding, specGoodShape, badAttributeAccess, pyGet,
      jsonTruthy, isJsonList, hld, hle]

/-- C8 witness: a well-formed body parses to exactly its first element's
embedding. -/
theorem C8_witness :
    parseEmbedding goodBody = .ok [.num 1, .num 2, .num 3] :=
  ((C8_parse_classification goodBody).1 [.num 1, .num 2, .num 3]).mp rfl

/-- C9: a row whose text is null counts as exactly one failure and the loop
proceeds: with complete configuration the call fails at the trim step
(before the request is constructed), in any case no network request is made
for that row, the failure is logged with the row identifier, no update
statement is executed for that row, and every later row is still
attempted. -/
theorem C9_null_text_row (cfg : VectorConfig) (p : RefreshEmbeddingParams)
    (w : DbWorld) (a : String)
    (hconn : w.connectOk = true) (hreg : w.registerFail = none)
    (hres : w.resolveOk = true)
    (hmatch : resolveTable w.tables p.table_name = some a)
    (hfetch : w.fetchOk = true)
    (k : Nat) (r : Row) (hr : w.rows[k]? = some r) (htext : r.text = none) :
    (configComplete cfg = true →
      (call_vector_service cfg r.text (w.net k)).value =
        .error .attributeErrorNullText) ∧
    (call_vector_service cfg r.text (w.net k)).networkCalled = false ∧
    rowOutcome cfg w k r = false ∧
    Event.logRowFail k r.id ∈ (batch_refresh_embeddings cfg p w).trace ∧
    Event.networkCall k ∉ (batch_refresh_embeddings cfg p w).trace ∧
    (∀ t id, Event.update t k id ∉ (batch_refresh_embeddings cfg p w).trace) ∧
    (∀ j, k < j → j < w.rows.length →
      Event.attempt j ∈ (batch_refresh_embeddings cfg p w).trace) := by
  have hvalerr : ∃ err,
      (call_vector_service cfg r.text (w.net k)).value = .error err := by
    rcases hcc : configComplete cfg
    · exact ⟨.configurationError, by simp [call_vector_service, hcc]⟩
    · exact ⟨.attributeErrorNullText,
        by simp [call_vector_service, hcc, htext]⟩
  have hnc : (call_vector_service cfg r.text (w.net k)).networkCalled
      = false := by
    rcases hcc : configComplete cfg <;>
      simp [call_vector_service, hcc, htext]
  have hout : rowOutcome cfg w k r = false := by
    obtain ⟨err, herr⟩ := hvalerr
    simp [rowOutcome, herr]
  have hne : w.rows ≠ [] := by
    intro h0
    rw [h0] at hr
    simp at hr
  refine ⟨fun hcc => by simp [call_vector_service, hcc, htext], hnc, hout,
    ?_, ?_, ?_, ?_⟩
  · rw [batch_processing_eq cfg p w a hconn hreg hres hmatch hfetch hne]
    have hmem := @logRowFail_mem_processFrom cfg w (fullPath a) 0 w.rows k r
      hr (by simpa using hout)
    exact List.mem_append.mpr
      (Or.inl (List.mem_append.mpr (Or.inr (by simpa using hmem))))
  · refine networkCall_not_mem_batch cfg p w a k hconn hreg hres hmatch
      hfetch (fun m r' hr' hk => ?_)
    subst hk
    rw [hr] at hr'
    rw [(Option.some.inj hr').symm]
    exact hnc
  · intro t id
    refine update_not_mem_batch cfg p w a k hconn hreg hres hmatch hfetch
      (fun m r' hr' hk => ?_) t id
    subst hk
    rw [hr] at hr'
    rw [(Option.some.inj hr').symm]
    exact hvalerr
  · intro j hkj hjlen
    rw [batch_processing_eq cfg p w a hconn hreg hres hmatch hfetch hne]
    exact List.mem_append.mpr (Or.inl (List.mem_append.mpr
      (Or.inr (attempt_mem_processFrom (Nat.zero_le j) (by omega)))))

/-- C9 witness: in the three-row job `wDocs`, the null-text row at position 1
is logged as a failure and row 2 is still attempted. -/
theorem C9_witness :
    Event.logRowFail 1 2 ∈
        (batch_refresh_embeddings cfgFull pDocs wDocs).trace ∧
    Event.attempt 2 ∈ (batch_refresh_embeddings cfgFull pDocs wDocs).trace := by
  have h := C9_null_text_row cfgFull pDocs wDocs "docs" rfl rfl rfl
    (by decide) rfl 1 ⟨2, none⟩ (by decide) rfl
  exact ⟨h.2.2.2.1, h.2.2.2.2.2.2 2 (by decide) (by decide)⟩

/-- C10 counterexample: with only the service URL configured (model and
account identifiers absent) the health endpoint reports `true`, so its
boolean is not equivalent to the presence of the whole embedding-service
configuration. -/
theorem C10_counterexample :
    (health_check cfgUrlOnly).vector_service_configured = true ∧
    ¬(cfgUrlOnly.url.isSome = true ∧ cfgUrlOnly.model.isSome = true ∧
      cfgUrlOnly.user.isSome = true) := by
  decide

/-- C10 (amended): the health endpoint's boolean is true iff the service URL
alone is set (it does not check the model or account identifiers), and the
response reveals nothing beyond that bit: any two configurations agreeing on
the URL's presence produce identical responses. -/
theorem C10_health_reports_url_only (cfg : VectorConfig) :
    ((health_check cfg).vector_service_configured = true ↔
      truthyOpt cfg.url = true) ∧
    (∀ cfg', truthyOpt cfg'.url = truthyOpt cfg.url →
      health_check cfg' = health_check cfg) := by
  refine ⟨by simp [health_check], ?_⟩
  intro cfg' h
  simp [health_check, h]

/-- C10 witness: with the full configuration the health boolean is true. -/
theorem C10_witness :
    (health_check cfgFull).vector_service_configured = true :=
  ((C10_health_reports_url_only cfgFull).1).mpr (by decide)

end EmbeddingRefresh
